import Mathlib

/-!
Verification development for the Marvin telegram-bot framework
(`marvin/marvin.py`).  The Python source is shallowly embedded below:
pure fragments become Lean functions, the per-session dispatch pipeline
becomes explicit state passing, and Python exceptions become `Except`
values carrying the exception's `args` tuple.  Names follow the source
where Lean allows it.

`marvin/helper.py` is imported by the source (`Mode`, `Media`, `User`,
`ParsingDict`, `RegExDict`) but is not part of the sources available
here; the pieces of it the claims need are modelled from the spec and
are marked as such in their doc comments.
-/

namespace Marvin

/-- Modelled from the spec: the matcher kinds of §3/§4.1 (`exact`,
`parse`, `regex`).  The enum `Mode` lives in the missing
`marvin/helper.py`; the values `DEFAULT`, `PARSE`, `REGEX` are the ones
used by `Marvin.answer` in `marvin.py`. -/
inductive Mode where
  | DEFAULT
  | PARSE
  | REGEX
deriving DecidableEq, Repr

/-- Modelled from the spec: the media kinds of §3 (`media-kind ∈
{text, sticker, voice, audio, photo, video, document}`).  The enum
`Media` lives in the missing `marvin/helper.py`; the values are the
ones `Answer.media_commands` and `Answer._send` use in `marvin.py`. -/
inductive Media where
  | TEXT
  | STICKER
  | VOICE
  | AUDIO
  | PHOTO
  | VIDEO
  | DOCUMENT
deriving DecidableEq, Repr

/-- A Python `dict` assignment `d[k] = v`: overwrites the entry for an
existing key in place, otherwise appends a fresh entry. -/
def dictInsert {K H : Type} [DecidableEq K] (k : K) (v : H) : List (K × H) → List (K × H)
  | [] => [(k, v)]
  | (k1, v1) :: rest =>
      if k = k1 then (k, v) :: rest else (k1, v1) :: dictInsert k v rest

/-- A Python `dict` lookup `d[k]` / membership `k in d`. -/
def dictLookup {K H : Type} [DecidableEq K] (k : K) : List (K × H) → Option H
  | [] => none
  | (k1, v1) :: rest => if k = k1 then some v1 else dictLookup k rest

/-- Python `d.pop(k, None)`: the removed value (or `None`) together
with the dictionary after removal. -/
def dictPop {K H : Type} [DecidableEq K] (k : K) : List (K × H) → Option H × List (K × H)
  | [] => (none, [])
  | (k1, v1) :: rest =>
      if k = k1 then (some v1, rest)
      else
        let r := dictPop k rest
        (r.1, (k1, v1) :: r.2)

/-- The three class-level routing tables of `_Session`
(`simple_routes`, `parse_routes`, `regex_routes`).  The two pattern
tables store `pattern ↦ handler` entries exactly like the exact table;
their matching behaviour lives in the missing `marvin/helper.py` and is
passed in as an explicit matcher function where needed. -/
structure Routes (H : Type) where
  simple_routes : List (String × H)
  parse_routes : List (String × H)
  regex_routes : List (String × H)
deriving Repr

/-- The empty routing state. -/
def Routes.empty {H : Type} : Routes H := ⟨[], [], []⟩

/-- `Marvin.answer(message, mode)` applied to a handler `func`: the
registration decorator's table update, translated verbatim from the
source (`if mode == Mode.REGEX: ...` followed by
`if mode == Mode.PARSE: ... else: ...` — the second `if` is not an
`elif`, so its `else` arm also runs for `Mode.REGEX`). -/
def answer {H : Type} (message : String) (mode : Mode) (func : H) (s : Routes H) : Routes H :=
  let s1 :=
    if mode = Mode.REGEX then
      { s with regex_routes := dictInsert message func s.regex_routes }
    else s
  if mode = Mode.PARSE then
    { s1 with parse_routes := dictInsert message func s1.parse_routes }
  else
    { s1 with simple_routes := dictInsert message func s1.simple_routes }

/-- Named captures bound by a pattern match (`matching.named` for parse
routes, `matching.groupdict()` for regex routes). -/
abbrev Caps := List (String × String)

/-- Modelled from the spec: membership plus indexing of the
`ParsingDict` / `RegExDict` wrappers from the missing
`marvin/helper.py`.  Per §4.1 a table maps patterns to handlers and a
text matches the table if some pattern matches it, yielding that
pattern's handler and its named captures; `m pattern text` is the
underlying single-pattern matcher (parse-placeholder decomposition or
compiled-regex match). -/
def tableMatch {H : Type} (m : String → String → Option Caps)
    (tbl : List (String × H)) (text : String) : Option (H × Caps) :=
  match tbl with
  | [] => none
  | (p, h) :: rest =>
      match m p text with
      | some caps => some (h, caps)
      | none => tableMatch m rest text

/-- The routing phase of `_Session.handle_text_message`: try the exact
table, then the parse table, then the regex table, binding the matched
handler together with its named captures; fall back to the configured
default handler with no captures.  `pm` and `rm` are the parse and
regex single-pattern matchers. -/
def resolveRoute {H : Type} (pm rm : String → String → Option Caps)
    (s : Routes H) (default_answer : H) (text : String) : H × Caps :=
  match dictLookup text s.simple_routes with
  | some func => (func, [])
  | none =>
      match tableMatch pm s.parse_routes text with
      | some (func, caps) => (func, caps)
      | none =>
          match tableMatch rm s.regex_routes text with
          | some (func, caps) => (func, caps)
          | none => (default_answer, [])

/-- A Python exception value as the dispatch pipeline sees it: which
concrete class it is (by name), whether it is an `OSError` (the
recovery code indexes `args[1]` instead of `args[0]` for those), and
its `args` tuple. -/
structure PyErr where
  name : String
  isOSError : Bool
  args : List String
deriving DecidableEq, Repr

/-- `Exception.args[i]` as the recovery code reads it: `args[1]` for an
`OSError`, `args[0]` otherwise; reading past the end of the tuple is
itself an `IndexError`, modelled as `none`. -/
def excMsg (e : PyErr) : Option String :=
  if e.isOSError then e.args.get? 1 else e.args.get? 0

/-- Python `s.split(sep, 1)` when `sep in s`: the part before the first
occurrence of the single-character separator and the part after it
(`none` when the separator does not occur). -/
def splitOnceChar (sep : Char) : List Char → Option (List Char × List Char)
  | [] => none
  | c :: rest =>
      if c = sep then some ([], rest)
      else (splitOnceChar sep rest).map (fun p => (c :: p.1, p.2))

/-- String-level wrapper around `splitOnceChar`. -/
def splitOnce (sep : Char) (s : String) : Option (String × String) :=
  (splitOnceChar sep s.data).map (fun p => (⟨p.1⟩, ⟨p.2⟩))

/-- Python `s.split(sep)[0]`: everything before the first occurrence of
the separator, or the whole string when it does not occur. -/
def beforeFirst (sep : Char) (s : String) : String :=
  match splitOnceChar sep s.data with
  | some p => ⟨p.1⟩
  | none => s

/-- Modelled from the spec: "positional template substitution" — the
relevant fragment of Python's built-in `str.format(*args)`, restricted
to automatically numbered replacement fields, which is all the source
and spec use: each occurrence of a field is replaced by the next
positional argument, left to right. -/
def pyFormatChars : List Char → List String → List Char
  | [], _ => []
  | '\x7b' :: '\x7d' :: rest, a :: args => a.data ++ pyFormatChars rest args
  | c :: rest, args => c :: pyFormatChars rest args

/-- String-level wrapper around `pyFormatChars`. -/
def pyFormat (s : String) (args : List String) : String :=
  ⟨pyFormatChars s.data args⟩

/-- The loaded language files (`_Session.language`): a nested mapping
`language-code -> message-key -> template`. -/
abbrev LangTable := List (String × List (String × String))

/-- `_Session.language[lang][key]`, as an `Option`. -/
def langLookup (language : LangTable) (lang key : String) : Option String :=
  match dictLookup lang language with
  | some sect => dictLookup key sect
  | none => none

/-- A `choices` / `keyboard` argument: either a flat sequence of
labels or an already two-dimensional row layout, mirroring the
`isinstance(xs[0], str)` test the source performs. -/
inductive KbInput where
  | flat (labels : List String)
  | rows (rows : List (List String))
deriving DecidableEq, Repr

/-- The `reply_markup` value `_get_config` assembles: an inline
keyboard (from `choices`, each cell both label and callback data), a
one-shot reply keyboard (from `keyboard`), or nothing. -/
inductive KeyboardOut where
  | inline (rows : List (List String))
  | reply (rows : List (List String))
  | noMarkup
deriving DecidableEq, Repr

/-- The `Answer` object of the source, restricted to the fields the
claims exercise; `format_content` entries are modelled as the strings
they stringify to, and `callback` as an opaque continuation
identifier. -/
structure Answer where
  _msg : String
  format_content : List String
  choices : Option KbInput
  callback : Option Nat
  keyboard : Option KbInput
  media_type : Option Media
  media : Option String
  caption : Option String
  delay : Nat
deriving DecidableEq, Repr

/-- `Answer(msg)`: every optional argument left at its default. -/
def Answer.bare (msg : String) : Answer :=
  ⟨msg, [], none, none, none, none, none, none, 0⟩

/-- `Answer(msg, *format_content)` as produced by the normalization of
a returned sequence. -/
def Answer.fmt (msg : String) (args : List String) : Answer :=
  ⟨msg, args, none, none, none, none, none, none, 0⟩

/-- Python `s.lower()` on the ASCII-range language codes the claims
use, character by character. -/
def pyLower (s : String) : String :=
  ⟨s.data.map Char.toLower⟩

/-- The language code reduction of `Answer._apply_language`:
`language_code.split('_')[0].lower()`. -/
def langCodeOf (language_code : String) : String :=
  pyLower (beforeFirst '_' language_code)

/-- `Answer._apply_language`, translated from the source: look the
payload key up under the reduced language code, fall back to the
`default` section, and on a miss in both either re-raise the
`KeyError` (strict mode) or return the raw key unformatted (the
`return self._msg` exits before the formatting step).  On a hit, apply
`str.format` when `format_content` is non-empty. -/
def applyLanguage (strict_mode : Bool) (language : LangTable)
    (language_code : String) (key : String) (format_content : List String) :
    Except PyErr String :=
  let lang_code := langCodeOf language_code
  match langLookup language lang_code key with
  | some answer => .ok (if format_content.length > 0 then pyFormat answer format_content else answer)
  | none =>
      match langLookup language "default" key with
      | some answer => .ok (if format_content.length > 0 then pyFormat answer format_content else answer)
      | none =>
          if strict_mode then .error ⟨"KeyError", false, [key]⟩
          else .ok key

/-- The textual/media outcome of the `Answer.msg` property: the text to
send (`None` once a media shorthand consumed it), the resolved media
type, and the media reference and caption fields after inference. -/
structure MsgResult where
  text : Option String
  media_type : Media
  media : Option String
  caption : Option String
deriving DecidableEq, Repr

/-- The keys of `Answer.media_commands`, in the order the membership
test in `Answer.msg` lists them. -/
def mediaCommandNames : List String :=
  ["sticker", "audio", "voice", "document", "photo", "video"]

/-- `Answer.media_commands.get(command, Media.TEXT)`. -/
def mediaCommandsGet (command : String) : Media :=
  if command = "sticker" then Media.STICKER
  else if command = "voice" then Media.VOICE
  else if command = "audio" then Media.AUDIO
  else if command = "photo" then Media.PHOTO
  else if command = "video" then Media.VIDEO
  else if command = "document" then Media.DOCUMENT
  else Media.TEXT

/-- The media-type inference of `Answer.msg` for an answer whose
`media_type` is unset: split the resolved text on the first `:`; if
the head is a known media command, split the remainder on the first
`;` into media reference and caption, clear the text, and map the
command through `media_commands`; otherwise the text stands and the
type defaults to `TEXT`. -/
def inferMedia (media caption : Option String) (msg : String) : MsgResult :=
  match splitOnce ':' msg with
  | some (command, payload) =>
      if command ∈ mediaCommandNames then
        match splitOnce ';' payload with
        | some (m, c) => ⟨none, mediaCommandsGet command, some m, some c⟩
        | none => ⟨none, mediaCommandsGet command, some payload, caption⟩
      else ⟨some msg, Media.TEXT, media, caption⟩
  | none => ⟨some msg, Media.TEXT, media, caption⟩

/-- The `Answer.msg` property: resolve the payload through
`_apply_language` when the language feature is on (propagating a
strict-mode `KeyError`), use it literally otherwise, then run the
media-type inference when `media_type` is unset. -/
def Answer.msgResolve (language_feature strict_mode : Bool) (language : LangTable)
    (language_code : String) (a : Answer) : Except PyErr MsgResult := do
  let msg ←
    if language_feature then
      applyLanguage strict_mode language language_code a._msg a.format_content
    else
      .ok a._msg
  match a.media_type with
  | some mt => .ok ⟨some msg, mt, a.media, a.caption⟩
  | none => .ok (inferMedia a.media a.caption msg)

/-- The Python slice `xs[i:j]`. -/
def pySlice {α : Type} (xs : List α) (i j : Nat) : List α :=
  (xs.drop i).take (j - i)

/-- The flattening comprehension of `_get_config`:
`[[y for y in xs[x*2:(x+1)*2]] for x in range(ceil(len(xs)/2))]`. -/
def pairUp {α : Type} (xs : List α) : List (List α) :=
  (List.range ((xs.length + 1) / 2)).map (fun x => pySlice xs (x * 2) (x * 2 + 2))

/-- `Answer._get_config`, restricted to the keyboard assembly it
performs (the remaining entries of the returned kwargs are
configuration pass-through).  Translated from the source including its
faults: an empty `choices`/`keyboard` sequence indexes `[0]` out of
range, and the flat-`keyboard` branch pairs up `self.choices` — which
is `None` in that branch — raising a `TypeError` at `len(None)`. -/
def getConfig (a : Answer) : Except PyErr KeyboardOut :=
  match a.choices with
  | some c =>
      match c with
      | .flat [] => .error ⟨"IndexError", false, ["list index out of range"]⟩
      | .flat labels => .ok (.inline (pairUp labels))
      | .rows [] => .error ⟨"IndexError", false, ["list index out of range"]⟩
      | .rows rs => .ok (.inline rs)
  | none =>
      match a.keyboard with
      | some k =>
          match k with
          | .flat [] => .error ⟨"IndexError", false, ["list index out of range"]⟩
          | .flat _ =>
              .error ⟨"TypeError", false, ["object of type 'NoneType' has no len()"]⟩
          | .rows [] => .error ⟨"IndexError", false, ["list index out of range"]⟩
          | .rows rs => .ok (.reply rs)
      | none => .ok .noMarkup

/-- The configuration values the dispatch pipeline reads
(`bot.language_feature`, `bot.strict_mode`, `bot.error_reply`). -/
structure Config where
  language_feature : Bool
  strict_mode : Bool
  error_reply : Option String
deriving DecidableEq, Repr

/-- One element of a handler's returned sequence: either an `Answer`
object or a bare (non-`Answer`) value, modelled by the string it
stringifies to. -/
inductive SeqElem where
  | ans (a : Answer)
  | bare (s : String)
deriving DecidableEq, Repr

/-- Python `str(x)` on a sequence element, as used by
`Answer(str(answer[0]), *answer[1:])`.  The default object repr of an
`Answer` contains its memory address; only its address-free prefix is
modelled, which no claim inspects. -/
def SeqElem.str : SeqElem → String
  | .ans _ => "<marvin.Answer object>"
  | .bare s => s

/-- A handler's return value as `_Session.prepare_answer` receives it:
`None`, a bare non-`Answer` non-sequence value (modelled by its
stringification), a single `Answer`, or a `list`/`tuple` of
elements. -/
inductive RetVal where
  | pyNone
  | bare (s : String)
  | answer (a : Answer)
  | seq (xs : List SeqElem)
deriving DecidableEq, Repr

/-- The normalization step at the top of `_Session.prepare_answer`:
`None` short-circuits to no send; a bare value becomes
`Answer(str(answer))`; a sequence whose first element is not an
`Answer` becomes `Answer(str(answer[0]), *answer[1:])`; any other
sequence is passed through unchanged.  The `answer[0]` test raises an
`IndexError` on an empty sequence. -/
def normalize (v : RetVal) : Except PyErr (Option (List SeqElem)) :=
  match v with
  | .pyNone => .ok none
  | .bare s => .ok (some [.ans (Answer.bare s)])
  | .answer a => .ok (some [.ans a])
  | .seq [] => .error ⟨"IndexError", false, ["list index out of range"]⟩
  | .seq (.bare s :: rest) => .ok (some [.ans (Answer.fmt s (rest.map SeqElem.str))])
  | .seq (.ans a :: rest) => .ok (some (.ans a :: rest))

/-- One outbound message as handed to the transport: the resolved
text/media payload, the assembled reply markup, the message id the
transport acknowledges with, and the answer's callback field. -/
structure Sent where
  message_id : Nat
  res : MsgResult
  reply_markup : KeyboardOut
  callback : Option Nat
deriving DecidableEq, Repr

/-- `Answer._send`: resolve `self.msg` first (which may raise a
strict-mode `KeyError`), then assemble the send kwargs via
`_get_config`.  The transport collaborator is modelled as always
accepting the message and acknowledging it with the next free message
id. -/
def sendOne (cfg : Config) (language : LangTable) (language_code : String)
    (message_id : Nat) (a : Answer) : Except PyErr Sent := do
  let res ← a.msgResolve cfg.language_feature cfg.strict_mode language language_code
  let kb ← getConfig a
  .ok ⟨message_id, res, kb, a.callback⟩

/-- The pending-continuation table `_Session.query_callback`,
`message-id ↦ continuation`; continuations are modelled as opaque
identifiers. -/
abbrev CallbackTable := List (Nat × Nat)

/-- `_Session.handle_answer`: send each element in order, and after
each successful send register the answer's callback (when set) under
the acknowledged message id.  A bare element has no `_send` attribute,
raising an `AttributeError`; a raised exception aborts the loop but
the messages already sent stay sent. -/
def handle_answer (cfg : Config) (language : LangTable) (language_code : String)
    (nextId : Nat) (qc : CallbackTable) :
    List SeqElem → List Sent × CallbackTable × Nat × Option PyErr
  | [] => ([], qc, nextId, none)
  | .bare _ :: _ =>
      ([], qc, nextId, some ⟨"AttributeError", false, ["'str' object has no attribute '_send'"]⟩)
  | .ans a :: rest =>
      match sendOne cfg language language_code nextId a with
      | .error e => ([], qc, nextId, some e)
      | .ok s =>
          let qc1 :=
            match a.callback with
            | some cb => dictInsert s.message_id cb qc
            | none => qc
          let r := handle_answer cfg language language_code (nextId + 1) qc1 rest
          (s :: r.1, r.2)

/-- `_Session.handle_error`: when `bot.error_reply` is configured,
send it as `Answer(error_reply)`; otherwise do nothing.  Should the
error reply itself fail to send, the real code re-enters its own
recovery (an unbounded mutual recursion); the model truncates that at
one level — no configuration used by a theorem below reaches the
truncation. -/
def handle_error (cfg : Config) (language : LangTable) (language_code : String)
    (nextId : Nat) : List Sent × Nat :=
  match cfg.error_reply with
  | none => ([], nextId)
  | some r =>
      match sendOne cfg language language_code nextId (Answer.bare r) with
      | .ok s => ([s], nextId + 1)
      | .error _ => ([], nextId)

/-- The observable outcome of one inbound-event pipeline run: the
messages that went out, the pending-callback table and the transport
id counter afterwards, and — when an exception left the pipeline
uncontained — that exception. -/
structure PipeOut where
  sent : List Sent
  query_callback : CallbackTable
  nextId : Nat
  escaped : Option PyErr
deriving DecidableEq, Repr

/-- `_Session.prepare_answer`: normalize the return value, hand the
result to `handle_answer`, and contain any raised exception by logging
it and invoking `handle_error` — except that the logging itself reads
`e.args`, and when that indexing fails the fresh `IndexError` escapes
the pipeline. -/
def prepare_answer (cfg : Config) (language : LangTable) (language_code : String)
    (nextId : Nat) (qc : CallbackTable) (v : RetVal) : PipeOut :=
  match normalize v with
  | .error e =>
      match excMsg e with
      | some _ =>
          let er := handle_error cfg language language_code nextId
          ⟨er.1, qc, er.2, none⟩
      | none => ⟨[], qc, nextId, some ⟨"IndexError", false, ["tuple index out of range"]⟩⟩
  | .ok none => ⟨[], qc, nextId, none⟩
  | .ok (some elems) =>
      let r := handle_answer cfg language language_code nextId qc elems
      match r.2.2.2 with
      | none => ⟨r.1, r.2.1, r.2.2.1, none⟩
      | some e =>
          match excMsg e with
          | some _ =>
              let er := handle_error cfg language language_code r.2.2.1
              ⟨r.1 ++ er.1, r.2.1, er.2, none⟩
          | none => ⟨r.1, r.2.1, r.2.2.1, some ⟨"IndexError", false, ["tuple index out of range"]⟩⟩

/-- `_Session.handle_text_message`: route the text, invoke the matched
handler (which may raise), and either recover — log the failure by
indexing `e.args` (an `OSError` keeps its message at index 1, anything
else at index 0) and send the configured error reply — or pass the
return value on to `prepare_answer`.  When the handler's exception
carries no argument at the indexed position, the recovery block's own
`IndexError` escapes the pipeline. -/
def handle_text_message {H : Type} (pm rm : String → String → Option Caps)
    (routes : Routes H) (default_answer : H)
    (invoke : H → Caps → Except PyErr RetVal)
    (cfg : Config) (language : LangTable) (language_code : String)
    (nextId : Nat) (qc : CallbackTable) (text : String) : PipeOut :=
  let rc := resolveRoute pm rm routes default_answer text
  match invoke rc.1 rc.2 with
  | .error e =>
      match excMsg e with
      | some _ =>
          let er := handle_error cfg language language_code nextId
          ⟨er.1, qc, er.2, none⟩
      | none => ⟨[], qc, nextId, some ⟨"IndexError", false, ["tuple index out of range"]⟩⟩
  | .ok v => prepare_answer cfg language language_code nextId qc v

/-- `_Session.on_callback_query`, restricted to its continuation
bookkeeping: pop the continuation registered under the event's
originating message id (a no-op when absent), invoke it when present,
and acknowledge the query to the transport unconditionally.  Returns
the table afterwards, the invoked continuation (if any), and whether
`answerCallbackQuery` was issued. -/
def on_callback_query (qc : CallbackTable) (message_id : Nat) :
    CallbackTable × Option Nat × Bool :=
  let r := dictPop message_id qc
  (r.2, r.1, true)

/-- A whole sequence of callback-query events processed in arrival
order: the final table, the message ids whose continuation actually
got invoked (in order, with multiplicity), and the number of
acknowledgements issued. -/
def runCallbacks (qc : CallbackTable) : List Nat → CallbackTable × List Nat × Nat
  | [] => (qc, [], 0)
  | e :: es =>
      let r := on_callback_query qc e
      let rest := runCallbacks r.1 es
      (rest.1, (match r.2.1 with | some _ => [e] | none => []) ++ rest.2.1, rest.2.2 + 1)

/-- The two-section localization table of the spec's fallback example:
`{"de": {"hi": "Hallo"}, "default": {"hi": "Hi"}}`. -/
def langTableDE : LangTable := [("de", [("hi", "Hallo")]), ("default", [("hi", "Hi")])]

/-- A localization table whose `default` section lacks the key the
strict-mode theorems request. -/
def langDefaultOnly : LangTable := [("default", [("known", "Yes")])]

/-- C6: registration is claimed to store the binding in exactly the
table named by the matcher kind.  `DEFAULT` and `PARSE` registrations
do land in a single table, and re-registering an exact pattern
overwrites its single entry; but a `REGEX` registration is stored in
BOTH the regex table and the exact table, because the `if mode ==
Mode.PARSE ... else ...` in `Marvin.answer` is not chained as an
`elif` onto the preceding `if mode == Mode.REGEX`, so its `else` arm
also fires for `Mode.REGEX`. -/
theorem answer_regex_double_store :
    answer "sim" Mode.DEFAULT (1 : Nat) Routes.empty = ⟨[("sim", 1)], [], []⟩ ∧
    answer "par" Mode.PARSE (2 : Nat) Routes.empty = ⟨[], [("par", 2)], []⟩ ∧
    answer "reg" Mode.REGEX (3 : Nat) Routes.empty = ⟨[("reg", 3)], [], [("reg", 3)]⟩ ∧
    answer "sim" Mode.DEFAULT (4 : Nat) (answer "sim" Mode.DEFAULT (1 : Nat) Routes.empty) =
      ⟨[("sim", 4)], [], []⟩ :=
  ⟨rfl, rfl, rfl, rfl⟩

/-- C8: flat `choices` are paired into rows of two and take precedence
over `keyboard`, as claimed; but a flat `keyboard` is NOT paired up —
the flat-`keyboard` branch of `_get_config` pairs up `self.choices`,
which is `None` in that branch, so `len(None)` raises a `TypeError`
instead of building the reply keyboard. -/
theorem keyboard_flat_fails :
    getConfig ⟨"m", [], some (.flat ["A", "B", "C"]), none, none, none, none, none, 0⟩ =
      .ok (.inline [["A", "B"], ["C"]]) ∧
    getConfig ⟨"m", [], none, none, some (.flat ["A", "B", "C"]), none, none, none, 0⟩ =
      .error ⟨"TypeError", false, ["object of type 'NoneType' has no len()"]⟩ ∧
    getConfig ⟨"m", [], some (.flat ["A", "B"]), none, some (.rows [["K"]]), none, none, none, 0⟩ =
      .ok (.inline [["A", "B"]]) :=
  ⟨rfl, rfl, rfl⟩

/-- C5: a lenient-mode localization miss is indeed recovered by using
the raw key as the literal text (third conjunct); but the strict-mode
`KeyError` raised by `_apply_language` does NOT propagate out of the
per-event pipeline: it is raised inside `prepare_answer`'s `try` and
caught by its generic `except Exception` like every other failure, so
the pipeline ends with nothing escaped (second conjunct, `escaped =
none`), contradicting the source's own comment that re-raising "will
terminate the application". -/
theorem strict_miss_contained :
    applyLanguage true langDefaultOnly "de" "nope" [] =
      .error ⟨"KeyError", false, ["nope"]⟩ ∧
    prepare_answer ⟨true, true, none⟩ langDefaultOnly "de" 0 [] (.answer (Answer.bare "nope")) =
      ⟨[], [], 0, none⟩ ∧
    prepare_answer ⟨true, false, none⟩ langDefaultOnly "de" 0 [] (.answer (Answer.bare "nope")) =
      ⟨[⟨0, ⟨some "nope", Media.TEXT, none, none⟩, .noMarkup, none⟩], [], 1, none⟩ :=
  ⟨rfl, rfl, rfl⟩

/-- C10: a handler raising an exception that carries a message is
recovered as claimed — one outbound message when `error_reply` is
configured, zero otherwise, nothing escaped, the pending-callback
table untouched, and the next event processed normally (conjuncts 1,
2 and 4); but the recovery block reads `e.args[0]` (`args[1]` for an
`OSError`), so a handler raising an exception with an empty `args`
tuple makes the recovery itself raise an `IndexError` that escapes the
pipeline uncontained (conjunct 3). -/
theorem handler_failure_recovery :
    handle_text_message (fun _ _ => none) (fun _ _ => none) (Routes.empty (H := Nat)) 0
        (fun _ _ => .error ⟨"ValueError", false, ["boom"]⟩)
        ⟨false, false, some "err"⟩ [] "en" 5 [(3, 9)] "hello" =
      ⟨[⟨5, ⟨some "err", Media.TEXT, none, none⟩, .noMarkup, none⟩], [(3, 9)], 6, none⟩ ∧
    handle_text_message (fun _ _ => none) (fun _ _ => none) (Routes.empty (H := Nat)) 0
        (fun _ _ => .error ⟨"ValueError", false, ["boom"]⟩)
        ⟨false, false, none⟩ [] "en" 5 [(3, 9)] "hello" =
      ⟨[], [(3, 9)], 5, none⟩ ∧
    handle_text_message (fun _ _ => none) (fun _ _ => none) (Routes.empty (H := Nat)) 0
        (fun _ _ => .error ⟨"Exception", false, []⟩)
        ⟨false, false, some "err"⟩ [] "en" 5 [(3, 9)] "hello" =
      ⟨[], [(3, 9)], 5, some ⟨"IndexError", false, ["tuple index out of range"]⟩⟩ ∧
    handle_text_message (fun _ _ => none) (fun _ _ => none) (Routes.empty (H := Nat)) 0
        (fun _ _ => .ok (.bare "ok"))
        ⟨false, false, some "err"⟩ [] "en" 6 [(3, 9)] "next" =
      ⟨[⟨6, ⟨some "ok", Media.TEXT, none, none⟩, .noMarkup, none⟩], [(3, 9)], 7, none⟩ :=
  ⟨rfl, rfl, rfl, rfl⟩

/-- C3 counterexample: with the spec's own table, a requester with
language code `de-DE` does NOT resolve `"hi"` to `"Hallo"`:
`_apply_language` reduces the code by splitting on an underscore, not
a hyphen, so `de-DE` becomes `de-de`, misses the `de` section, and
falls back to `default`, yielding `"Hi"`. -/
theorem apply_language_hyphen_cex :
    langCodeOf "de-DE" = "de-de" ∧
    applyLanguage false langTableDE "de-DE" "hi" [] = .ok "Hi" ∧
    ((.ok "Hi" : Except PyErr String) ≠ .ok "Hallo") :=
  ⟨by decide, rfl, fun h => absurd (Except.ok.inj h) (by decide)⟩

/-- C4 counterexample: with localization disabled, positional
substitution is NOT applied to the literal payload: the `Answer.msg`
property only formats inside `_apply_language`, so the payload is sent
verbatim with its format arguments ignored. -/
theorem format_without_language_cex :
    Answer.msgResolve false false [] "en" (Answer.fmt "hi \x7b\x7d" ["Bob"]) =
      .ok ⟨some "hi \x7b\x7d", Media.TEXT, none, none⟩ ∧
    pyFormat "hi \x7b\x7d" ["Bob"] = "hi Bob" ∧
    ((some "hi \x7b\x7d" : Option String) ≠ some "hi Bob") :=
  ⟨rfl, by decide, by decide⟩

/-- C2 counterexample: an empty list is (vacuously) a sequence of
`Answer` objects, but instead of being sent unchanged (zero sends and
an intact pipeline) it trips the `answer[0]` test in
`prepare_answer`, raising an `IndexError` that is recovered by sending
the configured error reply — one outbound message where the claim
requires none. -/
theorem prepare_answer_empty_seq_cex :
    normalize (.seq []) = .error ⟨"IndexError", false, ["list index out of range"]⟩ ∧
    prepare_answer ⟨false, false, some "err"⟩ [] "en" 0 [] (.seq ([] : List SeqElem)) =
      ⟨[⟨0, ⟨some "err", Media.TEXT, none, none⟩, .noMarkup, none⟩], [], 1, none⟩ ∧
    ([⟨0, ⟨some "err", Media.TEXT, none, none⟩, .noMarkup, none⟩] : List Sent) ≠ [] :=
  ⟨rfl, rfl, by decide⟩

/-- C1: for every incoming text and every state of the three routing
tables — hence regardless of the registration order that produced them
— resolution tries the exact table first, then the parse table, then
the regex table, binding the first match's handler with its named
captures, and falls back to the configured default handler (with no
captures) only when no table matches. -/
theorem routing_precedence {H : Type} (pm rm : String → String → Option Caps)
    (s : Routes H) (default_answer : H) (text : String) :
    (∀ func, dictLookup text s.simple_routes = some func →
        resolveRoute pm rm s default_answer text = (func, [])) ∧
    (dictLookup text s.simple_routes = none →
      ∀ func caps, tableMatch pm s.parse_routes text = some (func, caps) →
        resolveRoute pm rm s default_answer text = (func, caps)) ∧
    (dictLookup text s.simple_routes = none →
      tableMatch pm s.parse_routes text = none →
      ∀ func caps, tableMatch rm s.regex_routes text = some (func, caps) →
        resolveRoute pm rm s default_answer text = (func, caps)) ∧
    (dictLookup text s.simple_routes = none →
      tableMatch pm s.parse_routes text = none →
      tableMatch rm s.regex_routes text = none →
        resolveRoute pm rm s default_answer text = (default_answer, [])) := by
  refine ⟨?_, ?_, ?_, ?_⟩
  · intro func h
    simp [resolveRoute, h]
  · intro h1 func caps h2
    simp [resolveRoute, h1, h2]
  · intro h1 h2 func caps h3
    simp [resolveRoute, h1, h2, h3]
  · intro h1 h2 h3
    simp [resolveRoute, h1, h2, h3]

/-- A parse matcher for the routing witness: only the text `ptext`
decomposes, binding one named capture. -/
def pmW : String → String → Option Caps := fun _ text =>
  if text = "ptext" then some [("x", "1")] else none

/-- A regex matcher for the routing witness: matches every text except
`other`, so it overlaps both the exact route and the parse route. -/
def rmW : String → String → Option Caps := fun _ text =>
  if text = "other" then none else some [("y", "2")]

/-- A routing state holding one route of each kind. -/
def routesW : Routes Nat := ⟨[("hi", 1)], [("p", 2)], [("r", 3)]⟩

/-- Concrete instance of `routing_precedence`: with the regex route
matching `hi` and `ptext` as well, the exact route still wins on `hi`
and the parse route on `ptext`; the regex route fires on `rtext`, and
`other`, matched nowhere, falls to the default handler. -/
theorem routing_precedence_witness :
    resolveRoute pmW rmW routesW 9 "hi" = (1, []) ∧
    resolveRoute pmW rmW routesW 9 "ptext" = (2, [("x", "1")]) ∧
    resolveRoute pmW rmW routesW 9 "rtext" = (3, [("y", "2")]) ∧
    resolveRoute pmW rmW routesW 9 "other" = (9, []) :=
  ⟨(routing_precedence pmW rmW routesW 9 "hi").1 1 rfl,
   (routing_precedence pmW rmW routesW 9 "ptext").2.1 rfl 2 [("x", "1")] rfl,
   (routing_precedence pmW rmW routesW 9 "rtext").2.2.1 rfl rfl 3 [("y", "2")] rfl,
   (routing_precedence pmW rmW routesW 9 "other").2.2.2 rfl rfl rfl⟩

/-- C3 (amended): the payload key is looked up under the requester's
language code reduced to the part before the first UNDERSCORE and
lowercased (hyphenated codes are not reduced), falling back to the
`default` section on a miss; so with the spec's table, `de_DE`
resolves `hi` to `Hallo`, while both `fr` and the hyphenated `de-DE`
resolve it to `Hi`. -/
theorem apply_language_fallback (language : LangTable) (code key t : String)
    (strict : Bool) :
    (langLookup language (langCodeOf code) key = some t →
      applyLanguage strict language code key [] = .ok t) ∧
    (langLookup language (langCodeOf code) key = none →
      langLookup language "default" key = some t →
      applyLanguage strict language code key [] = .ok t) ∧
    applyLanguage strict langTableDE "de_DE" "hi" [] = .ok "Hallo" ∧
    applyLanguage strict langTableDE "fr" "hi" [] = .ok "Hi" ∧
    applyLanguage strict langTableDE "de-DE" "hi" [] = .ok "Hi" := by
  refine ⟨?_, ?_, rfl, rfl, rfl⟩
  · intro h
    simp [applyLanguage, h]
  · intro h1 h2
    simp [applyLanguage, h1, h2]

/-- Concrete instance of `apply_language_fallback`: an upper-case `DE`
still hits the `de` section (case-insensitivity of the reduction), and
`fr-FR` misses every section except `default`. -/
theorem apply_language_fallback_witness :
    applyLanguage false langTableDE "DE" "hi" [] = .ok "Hallo" ∧
    applyLanguage false langTableDE "fr-FR" "hi" [] = .ok "Hi" :=
  ⟨(apply_language_fallback langTableDE "DE" "hi" "Hallo" false).1 rfl,
   (apply_language_fallback langTableDE "fr-FR" "hi" "Hi" false).2.1 rfl rfl⟩

/-- C4 (amended): positional template substitution is applied to the
localized template when localization is enabled (whether the key
resolved in the requester's section or in `default`), but when
localization is disabled the literal payload is sent verbatim — the
resolution does not depend on the format arguments at all. -/
theorem format_only_with_language (language : LangTable) (code key t : String)
    (fmt : List String) (strict : Bool) (a : Answer) :
    (langLookup language (langCodeOf code) key = some t → 0 < fmt.length →
      applyLanguage strict language code key fmt = .ok (pyFormat t fmt)) ∧
    (langLookup language (langCodeOf code) key = none →
      langLookup language "default" key = some t → 0 < fmt.length →
      applyLanguage strict language code key fmt = .ok (pyFormat t fmt)) ∧
    (∀ fmt1 fmt2 : List String,
      Answer.msgResolve false strict language code { a with format_content := fmt1 } =
      Answer.msgResolve false strict language code { a with format_content := fmt2 }) := by
  refine ⟨?_, ?_, fun fmt1 fmt2 => rfl⟩
  · intro h hlen
    simp [applyLanguage, h, Nat.not_eq_zero_of_lt hlen, hlen]
  · intro h1 h2 hlen
    simp [applyLanguage, h1, h2, hlen]

/-- Concrete instance of `format_only_with_language`: with
localization on, `["greeting", name]`-style format arguments are
substituted into the resolved template; with it off, changing the
format arguments changes nothing. -/
theorem format_only_with_language_witness :
    applyLanguage false [("default", [("greeting", "Hello \x7b\x7d")])] "en" "greeting" ["Ada"] =
      .ok (pyFormat "Hello \x7b\x7d" ["Ada"]) ∧
    Answer.msgResolve false false langTableDE "de" { Answer.bare "x" with format_content := ["A"] } =
      Answer.msgResolve false false langTableDE "de" { Answer.bare "x" with format_content := [] } :=
  ⟨(format_only_with_language [("default", [("greeting", "Hello \x7b\x7d")])] "en" "greeting"
      "Hello \x7b\x7d" ["Ada"] false (Answer.bare "x")).2.1 rfl rfl (by decide),
   (format_only_with_language langTableDE "de" "x" "x" [] false (Answer.bare "x")).2.2 ["A"] []⟩

/-- C7: for an answer whose media type is unset, the resolved payload
is inspected for a `kind:rest` shorthand with a known media kind —
splitting `rest` on the first `;` into media reference and caption,
clearing the text and setting the kind — and otherwise the type
defaults to `text`; in particular `sticker:abc123` and
`photo:abc123;a cat` resolve as claimed. -/
theorem media_shorthand (media caption : Option String)
    (msg kind rest mref cap : String) (a : Answer) :
    (splitOnce ':' msg = some (kind, rest) → kind ∈ mediaCommandNames →
      splitOnce ';' rest = none →
      inferMedia media caption msg = ⟨none, mediaCommandsGet kind, some rest, caption⟩) ∧
    (splitOnce ':' msg = some (kind, rest) → kind ∈ mediaCommandNames →
      splitOnce ';' rest = some (mref, cap) →
      inferMedia media caption msg = ⟨none, mediaCommandsGet kind, some mref, some cap⟩) ∧
    ((∀ k r, splitOnce ':' msg = some (k, r) → k ∉ mediaCommandNames) →
      inferMedia media caption msg = ⟨some msg, Media.TEXT, media, caption⟩) ∧
    (a.media_type = none → ∀ strict language code,
      Answer.msgResolve false strict language code a =
        .ok (inferMedia a.media a.caption a._msg)) ∧
    inferMedia none none "sticker:abc123" = ⟨none, Media.STICKER, some "abc123", none⟩ ∧
    inferMedia none none "photo:abc123;a cat" =
      ⟨none, Media.PHOTO, some "abc123", some "a cat"⟩ := by
  refine ⟨?_, ?_, ?_, ?_, rfl, rfl⟩
  · intro h1 h2 h3
    simp [inferMedia, h1, h2, h3]
  · intro h1 h2 h3
    simp [inferMedia, h1, h2, h3]
  · intro h
    rcases hsplit : splitOnce ':' msg with _ | ⟨k, r⟩
    · simp [inferMedia, hsplit]
    · simp [inferMedia, hsplit, h k r hsplit]
  · intro hmt strict language code
    simp [Answer.msgResolve, hmt]
    rfl

/-- Concrete instance of `media_shorthand`: a captionless `voice`
shorthand, a captioned `audio` shorthand, and a payload with no
shorthand at all. -/
theorem media_shorthand_witness :
    inferMedia none none "voice:v1" = ⟨none, Media.VOICE, some "v1", none⟩ ∧
    inferMedia none none "audio:a1;c1" = ⟨none, Media.AUDIO, some "a1", some "c1"⟩ ∧
    inferMedia none none "hello" = ⟨some "hello", Media.TEXT, none, none⟩ ∧
    Answer.msgResolve false false [] "en" (Answer.bare "sticker:abc123") =
      .ok (inferMedia none none "sticker:abc123") :=
  ⟨(media_shorthand none none "voice:v1" "voice" "v1" "" "" (Answer.bare "x")).1
      rfl (by decide) rfl,
   (media_shorthand none none "audio:a1;c1" "audio" "a1;c1" "a1" "c1" (Answer.bare "x")).2.1
      rfl (by decide) rfl,
   (media_shorthand none none "hello" "k" "r" "" "" (Answer.bare "x")).2.2.1
      (by intro k r h; simp [show splitOnce ':' "hello" = none from rfl] at h),
   (media_shorthand none none "m" "k" "r" "" "" (Answer.bare "sticker:abc123")).2.2.2.1
      rfl false [] "en"⟩

/-- The message-id-independent part of `sendOne`: the resolved payload
together with the assembled reply markup. -/
def sendRes (cfg : Config) (language : LangTable) (language_code : String)
    (a : Answer) : Except PyErr (MsgResult × KeyboardOut) := do
  let r ← a.msgResolve cfg.language_feature cfg.strict_mode language language_code
  let k ← getConfig a
  .ok (r, k)

theorem sendOne_eq (cfg : Config) (language : LangTable) (code : String)
    (n : Nat) (a : Answer) :
    sendOne cfg language code n a =
      (sendRes cfg language code a).map (fun p => ⟨n, p.1, p.2, a.callback⟩) := by
  unfold sendOne sendRes
  rcases a.msgResolve cfg.language_feature cfg.strict_mode language code with e | r
  · rfl
  · rcases getConfig a with e | k
    · rfl
    · rfl

/-- When every answer in a batch resolves and assembles successfully,
`handle_answer` raises nothing, sends one message per answer, and the
`i`-th outbound message is exactly the send of the `i`-th answer under
the `i`-th consecutive message id. -/
theorem handle_answer_all_ok (cfg : Config) (language : LangTable) (code : String)
    (answers : List Answer) :
    ∀ (n : Nat) (qc : CallbackTable),
      (∀ a ∈ answers, ∃ p, sendRes cfg language code a = .ok p) →
      (handle_answer cfg language code n qc (answers.map SeqElem.ans)).2.2.2 = none ∧
      (handle_answer cfg language code n qc (answers.map SeqElem.ans)).1.length =
        answers.length ∧
      (∀ i a2, answers[i]? = some a2 →
        ∃ p, sendRes cfg language code a2 = .ok p ∧
          (handle_answer cfg language code n qc (answers.map SeqElem.ans)).1[i]? =
            some (Sent.mk (n + i) p.1 p.2 a2.callback)) := by
  induction answers with
  | nil =>
      intro n qc _
      refine ⟨rfl, rfl, ?_⟩
      intro i a2 h
      exact Option.noConfusion h
  | cons a rest ih =>
      intro n qc hok
      obtain ⟨p, hp⟩ := hok a (List.mem_cons_self a rest)
      have hsend : sendOne cfg language code n a = .ok ⟨n, p.1, p.2, a.callback⟩ := by
        rw [sendOne_eq, hp]
        rfl
      have hrec := ih (n + 1)
        (match (⟨n, p.1, p.2, a.callback⟩ : Sent).callback with
         | some cb => dictInsert (⟨n, p.1, p.2, a.callback⟩ : Sent).message_id cb qc
         | none => qc)
        (fun a2 ha2 => hok a2 (List.mem_cons_of_mem a ha2))
      obtain ⟨hesc, hlen, hidx⟩ := hrec
      have hunf : handle_answer cfg language code n qc ((a :: rest).map SeqElem.ans) =
          (⟨n, p.1, p.2, a.callback⟩ ::
            (handle_answer cfg language code (n + 1)
              (match (⟨n, p.1, p.2, a.callback⟩ : Sent).callback with
               | some cb => dictInsert (⟨n, p.1, p.2, a.callback⟩ : Sent).message_id cb qc
               | none => qc)
              (rest.map SeqElem.ans)).1,
           (handle_answer cfg language code (n + 1)
              (match (⟨n, p.1, p.2, a.callback⟩ : Sent).callback with
               | some cb => dictInsert (⟨n, p.1, p.2, a.callback⟩ : Sent).message_id cb qc
               | none => qc)
              (rest.map SeqElem.ans)).2) := by
        simp only [List.map_cons, handle_answer, hsend]
      refine ⟨?_, ?_, ?_⟩
      · rw [hunf]
        exact hesc
      · rw [hunf]
        simp [hlen]
      · intro i a2 h
        cases i with
        | zero =>
            have ha2 : a = a2 := by
              simpa using h
            subst ha2
            exact ⟨p, hp, by rw [hunf]; simp⟩
        | succ j =>
            have hj : rest[j]? = some a2 := by
              simpa using h
            obtain ⟨p2, hp2, hg⟩ := hidx j a2 hj
            refine ⟨p2, hp2, ?_⟩
            rw [hunf]
            have harith : n + 1 + j = n + (j + 1) := by omega
            simpa [harith] using hg

/-- C2 (amended): `None` produces no outbound send at all; a bare
value is sent as one `Answer` with that value as payload and no format
arguments; a sequence led by a non-`Answer` is sent as one `Answer`
with the first element as payload and the stringified remainder as
positional format arguments; and a NON-EMPTY sequence of `Answer`
objects is sent unchanged, in order, one outbound message per object
(an empty sequence instead trips the `answer[0]` test and takes the
error-recovery path, see the counterexample). -/
theorem prepare_answer_normalization (cfg : Config) (language : LangTable)
    (code : String) (nextId : Nat) (qc : CallbackTable) (s : String)
    (rest : List SeqElem) (answers : List Answer) :
    prepare_answer cfg language code nextId qc .pyNone = ⟨[], qc, nextId, none⟩ ∧
    prepare_answer cfg language code nextId qc (.bare s) =
      prepare_answer cfg language code nextId qc (.answer (Answer.bare s)) ∧
    prepare_answer cfg language code nextId qc (.seq (.bare s :: rest)) =
      prepare_answer cfg language code nextId qc
        (.answer (Answer.fmt s (rest.map SeqElem.str))) ∧
    (answers ≠ [] →
      (∀ a ∈ answers, ∃ p, sendRes cfg language code a = .ok p) →
      (prepare_answer cfg language code nextId qc
          (.seq (answers.map SeqElem.ans))).escaped = none ∧
      (prepare_answer cfg language code nextId qc
          (.seq (answers.map SeqElem.ans))).sent.length = answers.length ∧
      (∀ i a2, answers[i]? = some a2 →
        ∃ p, sendRes cfg language code a2 = .ok p ∧
          (prepare_answer cfg language code nextId qc
              (.seq (answers.map SeqElem.ans))).sent[i]? =
            some (Sent.mk (nextId + i) p.1 p.2 a2.callback))) := by
  refine ⟨rfl, rfl, rfl, ?_⟩
  intro hne hok
  rcases answers with _ | ⟨a, rest2⟩
  · exact absurd rfl hne
  obtain ⟨hesc, hlen, hidx⟩ :=
    handle_answer_all_ok cfg language code (a :: rest2) nextId qc hok
  have hpa : prepare_answer cfg language code nextId qc
      (.seq ((a :: rest2).map SeqElem.ans)) =
      ⟨(handle_answer cfg language code nextId qc ((a :: rest2).map SeqElem.ans)).1,
       (handle_answer cfg language code nextId qc ((a :: rest2).map SeqElem.ans)).2.1,
       (handle_answer cfg language code nextId qc ((a :: rest2).map SeqElem.ans)).2.2.1,
       none⟩ := by
    simp only [List.map_cons] at hesc ⊢
    simp only [prepare_answer, normalize, hesc]
  refine ⟨?_, ?_, ?_⟩
  · rw [hpa]
  · rw [hpa]
    exact hlen
  · intro i a2 h
    obtain ⟨p, hp, hg⟩ := hidx i a2 h
    exact ⟨p, hp, by rw [hpa]; exact hg⟩

/-- Concrete instance of `prepare_answer_normalization`: `None` sends
nothing even with an error reply configured, and a two-`Answer` list
yields exactly two outbound messages. -/
theorem prepare_answer_normalization_witness :
    prepare_answer ⟨false, false, some "err"⟩ [] "en" 0 [] .pyNone = ⟨[], [], 0, none⟩ ∧
    (prepare_answer ⟨false, false, none⟩ [] "en" 7 []
        (.seq [.ans (Answer.bare "x"), .ans (Answer.bare "y")])).sent.length = 2 :=
  ⟨(prepare_answer_normalization ⟨false, false, some "err"⟩ [] "en" 0 [] "s" [] []).1,
   ((prepare_answer_normalization ⟨false, false, none⟩ [] "en" 7 [] "s" []
        [Answer.bare "x", Answer.bare "y"]).2.2.2 (by decide)
      (by
        intro a ha
        simp only [List.mem_cons, List.mem_singleton] at ha
        rcases ha with rfl | rfl | h
        · exact ⟨_, rfl⟩
        · exact ⟨_, rfl⟩
        · simp at h)).2.1⟩

theorem dictPop_not_mem {K H : Type} [DecidableEq K] (k : K) (l : List (K × H))
    (h : k ∉ l.map Prod.fst) : dictPop k l = (none, l) := by
  induction l with
  | nil => rfl
  | cons p rest ih =>
      obtain ⟨k1, v1⟩ := p
      simp only [List.map_cons, List.mem_cons] at h
      push_neg at h
      simp [dictPop, h.1, ih h.2]

theorem dictPop_isSome {K H : Type} [DecidableEq K] (k : K) (l : List (K × H))
    (h : k ∈ l.map Prod.fst) : ∃ v, (dictPop k l).1 = some v := by
  induction l with
  | nil => simp at h
  | cons p rest ih =>
      obtain ⟨k1, v1⟩ := p
      by_cases hk : k = k1
      · exact ⟨v1, by simp [dictPop, hk]⟩
      · simp only [List.map_cons, List.mem_cons] at h
        rcases h with h | h
        · exact absurd h hk
        · obtain ⟨v, hv⟩ := ih h
          exact ⟨v, by simp [dictPop, hk, hv]⟩

theorem dictPop_keys_subset {K H : Type} [DecidableEq K] (k x : K) (l : List (K × H))
    (h : x ∈ (dictPop k l).2.map Prod.fst) : x ∈ l.map Prod.fst := by
  induction l with
  | nil => simp [dictPop] at h
  | cons p rest ih =>
      obtain ⟨k1, v1⟩ := p
      by_cases hk : k = k1
      · simp only [dictPop, if_pos hk] at h
        simp [h]
      · simp only [dictPop, if_neg hk, List.map_cons, List.mem_cons] at h
        rcases h with h | h
        · simp [h]
        · simp [ih h]

theorem dictPop_nodup {K H : Type} [DecidableEq K] (k : K) (l : List (K × H))
    (h : (l.map Prod.fst).Nodup) : ((dictPop k l).2.map Prod.fst).Nodup := by
  induction l with
  | nil => simp [dictPop]
  | cons p rest ih =>
      obtain ⟨k1, v1⟩ := p
      simp only [List.map_cons, List.nodup_cons] at h
      by_cases hk : k = k1
      · simpa [dictPop, if_pos hk] using h.2
      · simp only [dictPop, if_neg hk, List.map_cons, List.nodup_cons]
        exact ⟨fun hmem => h.1 (dictPop_keys_subset k k1 rest hmem), ih h.2⟩

theorem dictPop_self_not_mem {K H : Type} [DecidableEq K] (k : K) (l : List (K × H))
    (h : (l.map Prod.fst).Nodup) : k ∉ (dictPop k l).2.map Prod.fst := by
  induction l with
  | nil => simp [dictPop]
  | cons p rest ih =>
      obtain ⟨k1, v1⟩ := p
      simp only [List.map_cons, List.nodup_cons] at h
      by_cases hk : k = k1
      · subst hk
        simpa [dictPop] using h.1
      · simp only [dictPop, if_neg hk, List.map_cons, List.mem_cons]
        push_neg
        exact ⟨hk, ih h.2⟩

/-- A message id absent from the pending-callback table is never
invoked, no matter how many callback-query events arrive. -/
theorem runCallbacks_not_mem (M : Nat) (evs : List Nat) :
    ∀ qc : CallbackTable, M ∉ qc.map Prod.fst →
      (runCallbacks qc evs).2.1.count M = 0 := by
  induction evs with
  | nil =>
      intro qc _
      rfl
  | cons e es ih =>
      intro qc h
      have hsub : M ∉ (dictPop e qc).2.map Prod.fst :=
        fun hmem => h (dictPop_keys_subset e M qc hmem)
      simp only [runCallbacks, on_callback_query]
      rcases hpop : (dictPop e qc).1 with _ | f
      · simpa [hpop] using ih (dictPop e qc).2 hsub
      · have hne : e ≠ M := by
          intro he
          subst he
          rw [dictPop_not_mem e qc h] at hpop
          exact Option.noConfusion hpop
        simp [hpop, List.count_cons, hne, ih (dictPop e qc).2 hsub]

/-- C9: with a well-formed pending-callback table (unique message-id
keys), a continuation registered under message id `M` is invoked at
most once across any sequence of callback-query events; an event whose
id has no entry leaves the table unchanged and invokes nothing; and
every event is acknowledged to the transport. -/
theorem callback_once (qc : CallbackTable) (M : Nat) (evs : List Nat)
    (hnd : (qc.map Prod.fst).Nodup) :
    (runCallbacks qc evs).2.1.count M ≤ 1 ∧
    (∀ e, e ∉ qc.map Prod.fst → on_callback_query qc e = (qc, none, true)) ∧
    (runCallbacks qc evs).2.2 = evs.length := by
  refine ⟨?_, ?_, ?_⟩
  · induction evs generalizing qc with
    | nil => simp [runCallbacks]
    | cons e es ih =>
        by_cases he : e = M
        · subst he
          by_cases hm : e ∈ qc.map Prod.fst
          · obtain ⟨v, hv⟩ := dictPop_isSome e qc hm
            have hrest := runCallbacks_not_mem e es (dictPop e qc).2
              (dictPop_self_not_mem e qc hnd)
            simp [runCallbacks, on_callback_query, hv, List.count_cons, hrest]
          · have h0 := runCallbacks_not_mem e (e :: es) qc hm
            omega
        · simp only [runCallbacks, on_callback_query]
          have ihq := ih (dictPop e qc).2 (dictPop_nodup e qc hnd)
          rcases hpop : (dictPop e qc).1 with _ | f
          · simpa [hpop] using ihq
          · simpa [hpop, List.count_cons, he] using ihq
  · intro e he
    simp [on_callback_query, dictPop_not_mem e qc he]
  · induction evs generalizing qc with
    | nil => rfl
    | cons e es ih =>
        simp [runCallbacks, on_callback_query,
          ih (dictPop e qc).2 (dictPop_nodup e qc hnd)]

/-- Concrete instance of `callback_once`: a table holding one
continuation under message id 1, hit by two events for 1 and one for
2: the continuation fires at most once, an unknown id is a strict
no-op, and all three events are acknowledged. -/
theorem callback_once_witness :
    (runCallbacks [(1, 42)] [1, 1, 2]).2.1.count 1 ≤ 1 ∧
    on_callback_query [(1, 42)] 5 = ([(1, 42)], none, true) ∧
    (runCallbacks [(1, 42)] [1, 1, 2]).2.2 = 3 :=
  ⟨(callback_once [(1, 42)] 1 [1, 1, 2] (by decide)).1,
   (callback_once [(1, 42)] 1 [1, 1, 2] (by decide)).2.1 5 (by decide),
   (callback_once [(1, 42)] 1 [1, 1, 2] (by decide)).2.2⟩

end Marvin
